import Mathlib

/-!
Verification of the `ussl` module (`cc3200/mods/modussl.c`): the
`wrap_socket` shim that validates its arguments, strips the 6-byte
filesystem-root marker from file paths, sets four security options on the
underlying socket descriptor via `sl_SetSockOpt`, and returns a wrapped
secure-socket object.

The embedding models the function after argument parsing
(`mp_arg_parse_all` belongs to the host runtime): a `WrapArgs` record with
the parsed values and their defaults.  The vendor call `sl_SetSockOpt` is
modelled by an oracle `SlOpt → Int` giving the native return code of each
option-set call; all calls in one wrap target the single shared descriptor
`sock.sock_base.sd`, so the descriptor argument is omitted from `SlOpt`.
The result carries the trace of attempted calls and the sub-trace of calls
that returned success (the options now applied to the descriptor).
-/

namespace Ussl

/-- File paths are byte strings; we model them as lists of characters. -/
abbrev Path := List Char

/-- SSL_CERT_NONE from modussl.c. -/
def SSL_CERT_NONE : Int := 0

/-- SSL_CERT_OPTIONAL from modussl.c. -/
def SSL_CERT_OPTIONAL : Int := 1

/-- SSL_CERT_REQUIRED from modussl.c. -/
def SSL_CERT_REQUIRED : Int := 2

/-- Modelled from the spec: the numeric value of the external simplelink
header constant `SL_SO_SEC_METHOD_TLSV1` is not in this repository; the
claims only need it to be one fixed protocol-version constant. -/
def SL_SO_SEC_METHOD_TLSV1 : Nat := 1

/-- The transport state held in `mod_network_socket_base_t` (declared in
`modusocket.h`, outside this file): the descriptor `sd` and the
`cert_req` flag are the fields this module touches; every other field is
copied verbatim by the `memcpy`, abstracted here as `rest`. -/
structure SockBase where
  sd : Int
  cert_req : Bool
  rest : Nat
deriving DecidableEq

/-- A plain network socket object (`mod_network_socket_obj_t`): its object
identity (used for the wrapper's back-reference `o_sock`) and its
`sock_base` transport state. -/
structure PlainSocket where
  id : Nat
  sock_base : SockBase
deriving DecidableEq

/-- The parsed arguments of `wrap_socket`, after `mp_arg_parse_all`:
`sock` is required; `keyfile`, `certfile`, `ca_certs` default to `None`;
`server_side` defaults to `false`; `cert_reqs` defaults to
`SSL_CERT_NONE` and is a machine integer that the caller may set outside
the defined {0,1,2} range. -/
structure WrapArgs where
  keyfile : Option Path
  certfile : Option Path
  server_side : Bool
  cert_reqs : Int
  ca_certs : Option Path
deriving DecidableEq

/-- `mp_obj_ssl_socket_t`: the wrapped secure socket.  Its `base.type`
tag (`ssl_socket_type`) is represented by this Lean type itself;
`sock_base` is the copied transport state and `o_sock` the back-reference
to the original socket object. -/
structure SslSocket where
  sock_base : SockBase
  o_sock : Nat
deriving DecidableEq

/-- One `sl_SetSockOpt` call on the shared descriptor: the option code
together with the value passed (the method byte, or the stripped file
path whose `strlen` is the value length). -/
inductive SlOpt where
  | secMethod (method : Nat)
  | keyFile (p : Path)
  | certFile (p : Path)
  | caFile (p : Path)
deriving DecidableEq

/-- The four call sites of `mod_ssl_wrap_socket`, before the 6-byte strip
is performed: the file-call constructors carry the original (unstripped)
path argument. -/
inductive PlannedCall where
  | method
  | keyFile (orig : Path)
  | certFile (orig : Path)
  | caFile (orig : Path)
deriving DecidableEq

/-- The option a planned call passes to `sl_SetSockOpt`, with the 6-byte
root marker stripped from file paths (`&path[6]` in the source). -/
def strippedOpt : PlannedCall → SlOpt
  | .method => .secMethod SL_SO_SEC_METHOD_TLSV1
  | .keyFile p => .keyFile (p.drop 6)
  | .certFile p => .certFile (p.drop 6)
  | .caFile p => .caFile (p.drop 6)

/-- The source reads the path string from index 6 on (`&path[6]`, then
`strlen`) without any length check; the read stays inside the string
object only when the path holds at least the 6 root-marker characters.
`none` marks the out-of-bounds access. -/
def stripRoot? (p : Path) : Option Path :=
  if 6 ≤ p.length then some (p.drop 6) else none

/-- Executing one planned call: the value handed to `sl_SetSockOpt`, or
`none` when forming it would read the path string out of bounds. -/
def toOpt : PlannedCall → Option SlOpt
  | .method => some (.secMethod SL_SO_SEC_METHOD_TLSV1)
  | .keyFile p => (stripRoot? p).map SlOpt.keyFile
  | .certFile p => (stripRoot? p).map SlOpt.certFile
  | .caFile p => (stripRoot? p).map SlOpt.caFile

/-- A planned call whose string read stays in bounds. -/
def inBounds (c : PlannedCall) : Prop := toOpt c = some (strippedOpt c)

instance (c : PlannedCall) : Decidable (inBounds c) :=
  inferInstanceAs (Decidable (toOpt c = some (strippedOpt c)))

/-- The trace state threaded through the option-set sequence: the calls
attempted so far, and those that returned success (the options now
applied to the shared descriptor — applying an option is the only effect
`sl_SetSockOpt` has in this model, and nothing ever removes one). -/
structure CallState where
  attempted : List SlOpt
  applied : List SlOpt
deriving DecidableEq

/-- The sequence of `sl_SetSockOpt` calls of `mod_ssl_wrap_socket`, in
source order: the TLS method always; the private-key file when a keyfile
was given; the certificate file when a certfile was given; the CA file
exactly when the source's `cafile` pointer is non-NULL, i.e. when
`ca_certs` was given and `cert_reqs == SSL_CERT_REQUIRED`. -/
def planned (a : WrapArgs) : List PlannedCall :=
  [PlannedCall.method]
  ++ (match a.keyfile with | none => [] | some p => [PlannedCall.keyFile p])
  ++ (match a.certfile with | none => [] | some p => [PlannedCall.certFile p])
  ++ (match (if a.ca_certs = none ∨ a.cert_reqs ≠ SSL_CERT_REQUIRED
             then (none : Option Path) else a.ca_certs) with
      | none => [] | some p => [PlannedCall.caFile p])

/-- Run the option-set calls in order.  A negative oracle return code is
the `goto socket_error` path: the code is returned (`some e`) together
with the trace, and no further call is made.  `none` is the undefined
out-of-bounds string read. -/
def runCalls (oracle : SlOpt → Int) (st : CallState) :
    List PlannedCall → Option (Option Int × CallState)
  | [] => some (none, st)
  | c :: rest =>
    match toOpt c with
    | none => none
    | some o =>
      let e := oracle o
      if e < 0 then
        some (some e, { st with attempted := st.attempted ++ [o] })
      else
        runCalls oracle
          { attempted := st.attempted ++ [o], applied := st.applied ++ [o] } rest

/-- The three ways `mod_ssl_wrap_socket` ends: the `arg_error` label
(ValueError, invalid arguments), the `socket_error` label (OSError
carrying the native errno), or returning the new `SslSocket`. -/
inductive Outcome where
  | argError
  | socketError (errno : Int)
  | ok (s : SslSocket)
deriving DecidableEq

/-- A terminated run of `mod_ssl_wrap_socket`: its outcome plus the trace
of attempted and of successfully applied option-set calls. -/
structure WrapRes where
  outcome : Outcome
  attempted : List SlOpt
  applied : List SlOpt
deriving DecidableEq

/-- `mod_ssl_wrap_socket` from modussl.c.  In source order: the
ca-validation check (`cert_reqs != NONE` with no `ca_certs` hits
`arg_error`); the server-side check (`server_side` with keyfile or
certfile NULL hits `arg_error`) — both before any `sl_SetSockOpt` call;
then the four option-set calls of `planned`; finally the allocation that
memcpy-copies the plain socket's `sock_base`, overwrites `cert_req` with
`cert_reqs == SSL_CERT_REQUIRED`, and stores the back-reference
`o_sock`.  `none` is the undefined out-of-bounds path read. -/
def mod_ssl_wrap_socket (oracle : SlOpt → Int) (sock : PlainSocket)
    (a : WrapArgs) : Option WrapRes :=
  if a.cert_reqs ≠ SSL_CERT_NONE ∧ a.ca_certs = none then
    some ⟨.argError, [], []⟩
  else if a.server_side = true ∧ (a.keyfile = none ∨ a.certfile = none) then
    some ⟨.argError, [], []⟩
  else
    match runCalls oracle ⟨[], []⟩ (planned a) with
    | none => none
    | some (some e, st) => some ⟨.socketError e, st.attempted, st.applied⟩
    | some (none, st) =>
      some ⟨.ok { sock_base :=
                    { sock.sock_base with
                        cert_req := decide (a.cert_reqs = SSL_CERT_REQUIRED) },
                  o_sock := sock.id },
            st.attempted, st.applied⟩

/-- The option-set sequence as the specification describes it (spec side,
for the refinement claim about call order): first the TLS method, then
the private-key file if present, then the certificate file if present,
then the CA file only when it is applicable, each carrying the path
suffix past the 6-character root marker. -/
def specOptionOrder (a : WrapArgs) : List SlOpt :=
  [SlOpt.secMethod SL_SO_SEC_METHOD_TLSV1]
  ++ (match a.keyfile with | none => [] | some p => [SlOpt.keyFile (p.drop 6)])
  ++ (match a.certfile with | none => [] | some p => [SlOpt.certFile (p.drop 6)])
  ++ (if a.cert_reqs = SSL_CERT_REQUIRED then
        match a.ca_certs with | none => [] | some p => [SlOpt.caFile (p.drop 6)]
      else [])

/-- What it means for one attempted option-set value to be the provided
path argument with its 6-character root marker stripped: whichever file
option it is, the corresponding request field holds a path of length at
least 6 whose first 6 characters were removed and whose remaining suffix
is exactly what was forwarded. -/
def forwardsSuffix (a : WrapArgs) (o : SlOpt) : Prop :=
  (∀ q, o = SlOpt.keyFile q →
    ∃ p, a.keyfile = some p ∧ 6 ≤ p.length ∧ q = p.drop 6 ∧ p.take 6 ++ q = p) ∧
  (∀ q, o = SlOpt.certFile q →
    ∃ p, a.certfile = some p ∧ 6 ≤ p.length ∧ q = p.drop 6 ∧ p.take 6 ++ q = p) ∧
  (∀ q, o = SlOpt.caFile q →
    ∃ p, a.ca_certs = some p ∧ 6 ≤ p.length ∧ q = p.drop 6 ∧ p.take 6 ++ q = p)

/-- A concrete plain socket used by the witness instances. -/
def sock0 : PlainSocket := ⟨7, ⟨3, false, 42⟩⟩

/-- A concrete key-file path beginning with the 6-character root marker. -/
def keyPath : Path := String.toList "/flashK"

/-- A concrete certificate-file path with the root marker. -/
def certPath : Path := String.toList "/flashC"

/-- A concrete CA-file path with the root marker. -/
def caPath : Path := String.toList "/flashA"

/-- A lower layer on which every option-set call succeeds. -/
def okOracle : SlOpt → Int := fun _ => 0

/-- A lower layer on which the certificate-file registration fails with
native code -7 and every other call succeeds. -/
def failCertOracle : SlOpt → Int :=
  fun o => match o with | .certFile _ => -7 | _ => 0

lemma toOpt_some_iff (c : PlannedCall) (o : SlOpt) :
    toOpt c = some o ↔ inBounds c ∧ o = strippedOpt c := by
  cases c <;>
    simp only [toOpt, strippedOpt, inBounds, stripRoot?] <;>
    (try split) <;> simp [eq_comm]

lemma runCalls_success (oracle : SlOpt → Int) :
    ∀ (l : List PlannedCall) (st : CallState),
      (∀ c ∈ l, inBounds c ∧ 0 ≤ oracle (strippedOpt c)) →
      runCalls oracle st l =
        some (none, ⟨st.attempted ++ l.map strippedOpt,
                     st.applied ++ l.map strippedOpt⟩) := by
  intro l
  induction l with
  | nil => intro st _; simp [runCalls]
  | cons c rest ih =>
    intro st h
    have hc := h c (List.mem_cons_self c rest)
    have hrest : ∀ d ∈ rest, inBounds d ∧ 0 ≤ oracle (strippedOpt d) :=
      fun d hd => h d (List.mem_cons_of_mem c hd)
    unfold runCalls
    rw [hc.1]
    simp only
    rw [if_neg (not_lt.mpr hc.2), ih _ hrest]
    simp

lemma runCalls_first_fail (oracle : SlOpt → Int) :
    ∀ (l1 : List PlannedCall) (c : PlannedCall) (l2 : List PlannedCall)
      (st : CallState),
      (∀ d ∈ l1, inBounds d ∧ 0 ≤ oracle (strippedOpt d)) →
      inBounds c → oracle (strippedOpt c) < 0 →
      runCalls oracle st (l1 ++ c :: l2) =
        some (some (oracle (strippedOpt c)),
              ⟨st.attempted ++ l1.map strippedOpt ++ [strippedOpt c],
               st.applied ++ l1.map strippedOpt⟩) := by
  intro l1
  induction l1 with
  | nil =>
    intro c l2 st _ hc hfail
    rw [List.nil_append]
    unfold runCalls
    rw [hc]
    simp only
    rw [if_pos hfail]
    simp
  | cons d rest ih =>
    intro c l2 st h hc hfail
    have hd := h d (List.mem_cons_self d rest)
    have hrest : ∀ x ∈ rest, inBounds x ∧ 0 ≤ oracle (strippedOpt x) :=
      fun x hx => h x (List.mem_cons_of_mem d hx)
    rw [List.cons_append]
    unfold runCalls
    rw [hd.1]
    simp only
    rw [if_neg (not_lt.mpr hd.2), ih c l2 _ hrest hc hfail]
    simp

lemma runCalls_attempted_mem (oracle : SlOpt → Int) :
    ∀ (l : List PlannedCall) (st : CallState) (x : Option Int) (st' : CallState),
      runCalls oracle st l = some (x, st') →
      ∀ o ∈ st'.attempted, o ∈ st.attempted ∨ ∃ c ∈ l, toOpt c = some o := by
  intro l
  induction l with
  | nil =>
    intro st x st' h o ho
    unfold runCalls at h
    cases h
    exact Or.inl ho
  | cons c rest ih =>
    intro st x st' h o ho
    unfold runCalls at h
    rcases hc : toOpt c with _ | oc
    · rw [hc] at h; cases h
    · rw [hc] at h
      simp only at h
      by_cases he : oracle oc < 0
      · rw [if_pos he] at h
        cases h
        rcases List.mem_append.mp ho with h1 | h1
        · exact Or.inl h1
        · refine Or.inr ⟨c, List.mem_cons_self c rest, ?_⟩
          rw [hc, List.mem_singleton.mp h1]
      · rw [if_neg he] at h
        rcases ih _ _ _ h o ho with h1 | ⟨d, hd, hto⟩
        · rcases List.mem_append.mp h1 with h2 | h2
          · exact Or.inl h2
          · refine Or.inr ⟨c, List.mem_cons_self c rest, ?_⟩
            rw [hc, List.mem_singleton.mp h2]
        · exact Or.inr ⟨d, List.mem_cons_of_mem c hd, hto⟩

lemma keyFile_mem_planned {a : WrapArgs} {p : Path}
    (h : PlannedCall.keyFile p ∈ planned a) : a.keyfile = some p := by
  unfold planned at h
  rcases hk : a.keyfile with _ | k <;> rcases hc : a.certfile with _ | c <;>
    rcases hca : (if a.ca_certs = none ∨ a.cert_reqs ≠ SSL_CERT_REQUIRED
                  then (none : Option Path) else a.ca_certs) with _ | q <;>
    rw [hk, hc, hca] at h <;> simp_all

lemma certFile_mem_planned {a : WrapArgs} {p : Path}
    (h : PlannedCall.certFile p ∈ planned a) : a.certfile = some p := by
  unfold planned at h
  rcases hk : a.keyfile with _ | k <;> rcases hc : a.certfile with _ | c <;>
    rcases hca : (if a.ca_certs = none ∨ a.cert_reqs ≠ SSL_CERT_REQUIRED
                  then (none : Option Path) else a.ca_certs) with _ | q <;>
    rw [hk, hc, hca] at h <;> simp_all

lemma caFile_mem_planned {a : WrapArgs} {p : Path}
    (h : PlannedCall.caFile p ∈ planned a) :
    a.ca_certs = some p ∧ a.cert_reqs = SSL_CERT_REQUIRED := by
  unfold planned at h
  by_cases hif : a.ca_certs = none ∨ a.cert_reqs ≠ SSL_CERT_REQUIRED
  · rw [if_pos hif] at h
    rcases hk : a.keyfile with _ | k <;> rcases hc : a.certfile with _ | c <;>
      rw [hk, hc] at h <;> simp at h
  · rw [if_neg hif] at h
    push_neg at hif
    rcases hca : a.ca_certs with _ | q
    · exact absurd hca hif.1
    · rw [hca] at h
      rcases hk : a.keyfile with _ | k <;> rcases hc : a.certfile with _ | c <;>
        rw [hk, hc] at h <;> simp at h <;> simp [hca, h, hif.2]

lemma map_strippedOpt_planned (a : WrapArgs) :
    (planned a).map strippedOpt = specOptionOrder a := by
  unfold planned specOptionOrder
  rcases hk : a.keyfile with _ | k <;> rcases hc : a.certfile with _ | c <;>
    by_cases hreq : a.cert_reqs = SSL_CERT_REQUIRED <;>
    rcases hca : a.ca_certs with _ | q <;>
    simp [hk, hc, hreq, hca, strippedOpt]

lemma wrap_attempted_mem {oracle : SlOpt → Int} {sock : PlainSocket}
    {a : WrapArgs} {r : WrapRes}
    (h : mod_ssl_wrap_socket oracle sock a = some r) :
    ∀ o ∈ r.attempted, ∃ c ∈ planned a, toOpt c = some o := by
  unfold mod_ssl_wrap_socket at h
  split at h
  · cases h; intro o ho; simp at ho
  · split at h
    · cases h; intro o ho; simp at ho
    · rcases hrun : runCalls oracle ⟨[], []⟩ (planned a) with _ | ⟨_ | e, st⟩ <;>
        rw [hrun] at h
      · cases h
      · cases h
        intro o ho
        have := runCalls_attempted_mem oracle (planned a) ⟨[], []⟩ _ _ hrun o ho
        simpa using this
      · cases h
        intro o ho
        have := runCalls_attempted_mem oracle (planned a) ⟨[], []⟩ _ _ hrun o ho
        simpa using this

lemma wrap_ok_shape {oracle : SlOpt → Int} {sock : PlainSocket} {a : WrapArgs}
    {r : WrapRes} (h : mod_ssl_wrap_socket oracle sock a = some r)
    {s : SslSocket} (hs : r.outcome = Outcome.ok s) :
    s.sock_base.sd = sock.sock_base.sd ∧
    s.sock_base.rest = sock.sock_base.rest ∧
    s.sock_base.cert_req = decide (a.cert_reqs = SSL_CERT_REQUIRED) ∧
    s.o_sock = sock.id := by
  unfold mod_ssl_wrap_socket at h
  split at h
  · cases h; simp at hs
  · split at h
    · cases h; simp at hs
    · rcases hrun : runCalls oracle ⟨[], []⟩ (planned a) with _ | ⟨_ | e, st⟩ <;>
        rw [hrun] at h
      · cases h
      · cases h
        simp only [Outcome.ok.injEq] at hs
        subst hs
        simp
      · cases h
        simp at hs

lemma inBounds_keyFile {p : Path} (h : inBounds (PlannedCall.keyFile p)) :
    6 ≤ p.length := by
  by_contra hl
  simp [inBounds, toOpt, stripRoot?, hl] at h

lemma inBounds_certFile {p : Path} (h : inBounds (PlannedCall.certFile p)) :
    6 ≤ p.length := by
  by_contra hl
  simp [inBounds, toOpt, stripRoot?, hl] at h

lemma inBounds_caFile {p : Path} (h : inBounds (PlannedCall.caFile p)) :
    6 ≤ p.length := by
  by_contra hl
  simp [inBounds, toOpt, stripRoot?, hl] at h

/-- Concrete request data used by the witness instances below. -/
def shortPath : Path := String.toList "abc"

/-- A request with `cert_reqs = REQUIRED` and all three files given. -/
def argsRequired : WrapArgs := ⟨some keyPath, some certPath, false, 2, some caPath⟩

/-- A request with `cert_reqs = OPTIONAL` and all three files given. -/
def argsOptional : WrapArgs := ⟨some keyPath, some certPath, false, 1, some caPath⟩

/-- A request whose `cert_reqs` value 3 lies outside the defined set. -/
def argsOutOfRange : WrapArgs :=
  ⟨some keyPath, some certPath, false, 3, some caPath⟩

/-- The four option-set values of `argsRequired`, in order. -/
def requiredTrace : List SlOpt :=
  [.secMethod SL_SO_SEC_METHOD_TLSV1, .keyFile (keyPath.drop 6),
   .certFile (certPath.drop 6), .caFile (caPath.drop 6)]

/-- The run of `argsRequired` on the all-success lower layer. -/
def resRequired : WrapRes :=
  ⟨.ok ⟨⟨3, true, 42⟩, 7⟩, requiredTrace, requiredTrace⟩

/-- The option-set values when the CA file is not applicable. -/
def noCaTrace : List SlOpt :=
  [.secMethod SL_SO_SEC_METHOD_TLSV1, .keyFile (keyPath.drop 6),
   .certFile (certPath.drop 6)]

/-- The run of `argsOutOfRange` on the all-success lower layer. -/
def resOutOfRange : WrapRes :=
  ⟨.ok ⟨⟨3, false, 42⟩, 7⟩, noCaTrace, noCaTrace⟩

/-- C1: a request that violates a cross-field invariant — `cert_reqs`
different from NONE with `ca_certs` absent, or `server_side` true with
the keyfile or the certfile absent — makes `wrap_socket` fail with the
invalid-arguments (ValueError) outcome, and no option-set call is
attempted on the underlying descriptor (the attempted trace is empty),
whatever the lower layer would have answered. -/
theorem wrap_invalid_args_error (oracle : SlOpt → Int) (sock : PlainSocket)
    (a : WrapArgs)
    (h : (a.cert_reqs ≠ SSL_CERT_NONE ∧ a.ca_certs = none) ∨
         (a.server_side = true ∧ (a.keyfile = none ∨ a.certfile = none))) :
    mod_ssl_wrap_socket oracle sock a = some ⟨.argError, [], []⟩ := by
  unfold mod_ssl_wrap_socket
  rcases h with h | h
  · rw [if_pos h]
  · by_cases h1 : a.cert_reqs ≠ SSL_CERT_NONE ∧ a.ca_certs = none
    · rw [if_pos h1]
    · rw [if_neg h1, if_pos h]

/-- Witness for C1: `cert_reqs = OPTIONAL` with no CA file is rejected
with the invalid-arguments outcome and an empty call trace. -/
theorem wrap_invalid_args_error_witness :
    mod_ssl_wrap_socket okOracle sock0 ⟨none, none, false, 1, none⟩ =
      some ⟨.argError, [], []⟩ :=
  wrap_invalid_args_error okOracle sock0 _ (Or.inl (by decide))

/-- C2: when the first failing option-set call of a wrap run returns the
native negative code `X = oracle (strippedOpt c) < 0`, the wrap ends at
the OSError outcome carrying exactly that code: the failing call is the
last attempted one, only the calls before it were applied, and no
wrapped socket object is produced (the outcome is `socketError`, not
`ok`). -/
theorem wrap_optfail_oserror (oracle : SlOpt → Int) (sock : PlainSocket)
    (a : WrapArgs) (l1 l2 : List PlannedCall) (c : PlannedCall)
    (hv1 : ¬(a.cert_reqs ≠ SSL_CERT_NONE ∧ a.ca_certs = none))
    (hv2 : ¬(a.server_side = true ∧ (a.keyfile = none ∨ a.certfile = none)))
    (hplan : planned a = l1 ++ c :: l2)
    (hpre : ∀ d ∈ l1, inBounds d ∧ 0 ≤ oracle (strippedOpt d))
    (hc : inBounds c) (hfail : oracle (strippedOpt c) < 0) :
    mod_ssl_wrap_socket oracle sock a =
      some ⟨.socketError (oracle (strippedOpt c)),
            l1.map strippedOpt ++ [strippedOpt c], l1.map strippedOpt⟩ := by
  unfold mod_ssl_wrap_socket
  rw [if_neg hv1, if_neg hv2, hplan,
      runCalls_first_fail oracle l1 c l2 ⟨[], []⟩ hpre hc hfail]
  simp

/-- Witness for C2: with the certificate-file registration failing with
native code -7, the wrap on `argsOptional` ends with OSError -7 after
the method and key-file options were applied. -/
theorem wrap_optfail_oserror_witness :
    mod_ssl_wrap_socket failCertOracle sock0 argsOptional =
      some ⟨.socketError (failCertOracle (strippedOpt
              (PlannedCall.certFile certPath))),
            [PlannedCall.method, PlannedCall.keyFile keyPath].map strippedOpt
              ++ [strippedOpt (PlannedCall.certFile certPath)],
            [PlannedCall.method, PlannedCall.keyFile keyPath].map strippedOpt⟩ :=
  wrap_optfail_oserror failCertOracle sock0 argsOptional
    [PlannedCall.method, PlannedCall.keyFile keyPath] []
    (PlannedCall.certFile certPath)
    (by decide) (by decide) (by decide) (by decide) (by decide) (by decide)

/-- C7: on a request that passes the argument checks, with every
option-set call accepted by the lower layer, the calls performed on the
descriptor are exactly the sequence the specification describes — the
TLS method first, then the private-key file when given, then the
certificate file when given, then the CA file when applicable — in that
order and nothing else. -/
theorem wrap_sets_options_in_spec_order (oracle : SlOpt → Int)
    (sock : PlainSocket) (a : WrapArgs)
    (hv1 : ¬(a.cert_reqs ≠ SSL_CERT_NONE ∧ a.ca_certs = none))
    (hv2 : ¬(a.server_side = true ∧ (a.keyfile = none ∨ a.certfile = none)))
    (hok : ∀ c ∈ planned a, inBounds c ∧ 0 ≤ oracle (strippedOpt c)) :
    ∃ s, mod_ssl_wrap_socket oracle sock a =
      some ⟨.ok s, specOptionOrder a, specOptionOrder a⟩ := by
  refine ⟨⟨{ sock.sock_base with
              cert_req := decide (a.cert_reqs = SSL_CERT_REQUIRED) },
           sock.id⟩, ?_⟩
  unfold mod_ssl_wrap_socket
  rw [if_neg hv1, if_neg hv2, runCalls_success oracle (planned a) ⟨[], []⟩ hok]
  simp [map_strippedOpt_planned]

/-- Witness for C7: `argsRequired` on the all-success lower layer
performs exactly the four option-set calls of its spec order. -/
theorem wrap_sets_options_in_spec_order_witness :
    ∃ s, mod_ssl_wrap_socket okOracle sock0 argsRequired =
      some ⟨.ok s, specOptionOrder argsRequired, specOptionOrder argsRequired⟩ :=
  wrap_sets_options_in_spec_order okOracle sock0 argsRequired
    (by decide) (by decide) (by decide)

/-- C8: no rollback on failure — when the option-set calls before `c`
succeeded and `c` is the failing one, the run ends with the OSError
outcome while the applied-options trace still holds every previously set
option, in order: nothing is removed from the shared descriptor. -/
theorem wrap_no_rollback (oracle : SlOpt → Int) (sock : PlainSocket)
    (a : WrapArgs) (l1 l2 : List PlannedCall) (c : PlannedCall)
    (hv1 : ¬(a.cert_reqs ≠ SSL_CERT_NONE ∧ a.ca_certs = none))
    (hv2 : ¬(a.server_side = true ∧ (a.keyfile = none ∨ a.certfile = none)))
    (hplan : planned a = l1 ++ c :: l2)
    (hpre : ∀ d ∈ l1, inBounds d ∧ 0 ≤ oracle (strippedOpt d))
    (hc : inBounds c) (hfail : oracle (strippedOpt c) < 0) :
    ∃ e, mod_ssl_wrap_socket oracle sock a =
      some ⟨.socketError e,
            l1.map strippedOpt ++ [strippedOpt c], l1.map strippedOpt⟩ := by
  refine ⟨oracle (strippedOpt c), ?_⟩
  unfold mod_ssl_wrap_socket
  rw [if_neg hv1, if_neg hv2, hplan,
      runCalls_first_fail oracle l1 c l2 ⟨[], []⟩ hpre hc hfail]
  simp

/-- Witness for C8: after the certificate-file registration fails on
`argsRequired`, the method and key-file options stay applied. -/
theorem wrap_no_rollback_witness :
    ∃ e, mod_ssl_wrap_socket failCertOracle sock0 argsRequired =
      some ⟨.socketError e,
            [PlannedCall.method, PlannedCall.keyFile keyPath].map strippedOpt
              ++ [strippedOpt (PlannedCall.certFile certPath)],
            [PlannedCall.method, PlannedCall.keyFile keyPath].map strippedOpt⟩ :=
  wrap_no_rollback failCertOracle sock0 argsRequired
    [PlannedCall.method, PlannedCall.keyFile keyPath]
    [PlannedCall.caFile caPath] (PlannedCall.certFile certPath)
    (by decide) (by decide) (by decide) (by decide) (by decide) (by decide)

/-- C3: with `cert_reqs = OPTIONAL` and a CA file given, a request whose
other arguments are valid and whose option-set calls the lower layer
accepts wraps successfully, and the CA file is never forwarded (no CA
option-set call occurs in the trace); moreover, over all requests and
lower layers, a CA option-set call occurs only when
`cert_reqs = SSL_CERT_REQUIRED`. -/
theorem wrap_optional_ca_never_forwarded :
    (∀ (oracle : SlOpt → Int) (sock : PlainSocket) (a : WrapArgs),
      a.cert_reqs = SSL_CERT_OPTIONAL → a.ca_certs ≠ none →
      ¬(a.server_side = true ∧ (a.keyfile = none ∨ a.certfile = none)) →
      (∀ c ∈ planned a, inBounds c ∧ 0 ≤ oracle (strippedOpt c)) →
      ∃ s att, mod_ssl_wrap_socket oracle sock a = some ⟨.ok s, att, att⟩ ∧
        ∀ p, SlOpt.caFile p ∉ att) ∧
    (∀ (oracle : SlOpt → Int) (sock : PlainSocket) (a : WrapArgs)
       (r : WrapRes) (p : Path),
      mod_ssl_wrap_socket oracle sock a = some r →
      SlOpt.caFile p ∈ r.attempted → a.cert_reqs = SSL_CERT_REQUIRED) := by
  constructor
  · intro oracle sock a hreq hca hsrv hok
    have hv1 : ¬(a.cert_reqs ≠ SSL_CERT_NONE ∧ a.ca_certs = none) := by
      rintro ⟨-, h⟩; exact hca h
    refine ⟨⟨{ sock.sock_base with
                cert_req := decide (a.cert_reqs = SSL_CERT_REQUIRED) },
             sock.id⟩, (planned a).map strippedOpt, ?_, ?_⟩
    · unfold mod_ssl_wrap_socket
      rw [if_neg hv1, if_neg hsrv,
          runCalls_success oracle (planned a) ⟨[], []⟩ hok]
      simp
    · intro p hp
      rcases List.mem_map.mp hp with ⟨c, hcmem, hceq⟩
      cases c with
      | method => simp [strippedOpt] at hceq
      | keyFile q => simp [strippedOpt] at hceq
      | certFile q => simp [strippedOpt] at hceq
      | caFile q =>
        have := (caFile_mem_planned hcmem).2
        rw [hreq] at this
        exact absurd this (by decide)
  · intro oracle sock a r p h hmem
    rcases wrap_attempted_mem h (SlOpt.caFile p) hmem with ⟨c, hcmem, hto⟩
    rcases (toOpt_some_iff c _).mp hto with ⟨-, hstrip⟩
    cases c with
    | method => simp [strippedOpt] at hstrip
    | keyFile q => simp [strippedOpt] at hstrip
    | certFile q => simp [strippedOpt] at hstrip
    | caFile q => exact (caFile_mem_planned hcmem).2

/-- Witness for C3: `argsOptional` wraps successfully on the all-success
lower layer and its trace holds no CA option-set call. -/
theorem wrap_optional_ca_never_forwarded_witness :
    ∃ s att, mod_ssl_wrap_socket okOracle sock0 argsOptional =
      some ⟨.ok s, att, att⟩ ∧ ∀ p, SlOpt.caFile p ∉ att :=
  wrap_optional_ca_never_forwarded.1 okOracle sock0 argsOptional
    (by decide) (by decide) (by decide) (by decide)

/-- C4: a valid request with `cert_reqs = REQUIRED` and a CA file given,
whose option-set calls the lower layer accepts, wraps successfully: the
returned handle's transport state (`sd` and the other copied fields)
equals the original socket's, its certificate-required flag is true, and
it keeps the original socket object reachable through `o_sock`. -/
theorem wrap_required_success (oracle : SlOpt → Int) (sock : PlainSocket)
    (a : WrapArgs)
    (hreq : a.cert_reqs = SSL_CERT_REQUIRED) (hca : a.ca_certs ≠ none)
    (hsrv : ¬(a.server_side = true ∧ (a.keyfile = none ∨ a.certfile = none)))
    (hok : ∀ c ∈ planned a, inBounds c ∧ 0 ≤ oracle (strippedOpt c)) :
    ∃ s att, mod_ssl_wrap_socket oracle sock a = some ⟨.ok s, att, att⟩ ∧
      s.sock_base.sd = sock.sock_base.sd ∧
      s.sock_base.rest = sock.sock_base.rest ∧
      s.sock_base.cert_req = true ∧ s.o_sock = sock.id := by
  have hv1 : ¬(a.cert_reqs ≠ SSL_CERT_NONE ∧ a.ca_certs = none) := by
    rintro ⟨-, h⟩; exact hca h
  refine ⟨⟨{ sock.sock_base with
              cert_req := decide (a.cert_reqs = SSL_CERT_REQUIRED) },
           sock.id⟩, (planned a).map strippedOpt, ?_, rfl, rfl, ?_, rfl⟩
  · unfold mod_ssl_wrap_socket
    rw [if_neg hv1, if_neg hsrv,
        runCalls_success oracle (planned a) ⟨[], []⟩ hok]
    simp
  · simp [hreq]

/-- Witness for C4: `argsRequired` on the all-success lower layer returns
a wrapper with the same transport state, flag true, and the back
reference to `sock0`. -/
theorem wrap_required_success_witness :
    ∃ s att, mod_ssl_wrap_socket okOracle sock0 argsRequired =
      some ⟨.ok s, att, att⟩ ∧
      s.sock_base.sd = sock0.sock_base.sd ∧
      s.sock_base.rest = sock0.sock_base.rest ∧
      s.sock_base.cert_req = true ∧ s.o_sock = sock0.id :=
  wrap_required_success okOracle sock0 argsRequired
    (by decide) (by decide) (by decide) (by decide)

/-- C5: on every successful wrap, the wrapper's certificate-required flag
is true exactly when `cert_reqs = SSL_CERT_REQUIRED` (so it is false for
NONE and OPTIONAL). -/
theorem wrap_flag_iff_required (oracle : SlOpt → Int) (sock : PlainSocket)
    (a : WrapArgs) (r : WrapRes) (s : SslSocket)
    (h : mod_ssl_wrap_socket oracle sock a = some r)
    (hs : r.outcome = Outcome.ok s) :
    (s.sock_base.cert_req = true ↔ a.cert_reqs = SSL_CERT_REQUIRED) := by
  have hshape := wrap_ok_shape h hs
  rw [hshape.2.2.1]
  simp

/-- Witness for C5: the wrapper returned for `argsRequired` carries flag
true, matching `cert_reqs = 2 = SSL_CERT_REQUIRED`. -/
theorem wrap_flag_iff_required_witness :
    ((⟨⟨3, true, 42⟩, 7⟩ : SslSocket).sock_base.cert_req = true ↔
      (2 : Int) = SSL_CERT_REQUIRED) :=
  wrap_flag_iff_required okOracle sock0 argsRequired resRequired
    ⟨⟨3, true, 42⟩, 7⟩ (by decide) (by decide)

/-- C6: every file option-set call a wrap run attempts forwards exactly
the suffix of the provided path past its first 6 characters: the
corresponding request field holds a path of length at least 6, and the
forwarded value plus the removed 6-character root marker reassemble the
original path. -/
theorem wrap_forwards_stripped_suffix (oracle : SlOpt → Int)
    (sock : PlainSocket) (a : WrapArgs) (r : WrapRes)
    (h : mod_ssl_wrap_socket oracle sock a = some r) :
    ∀ o ∈ r.attempted, forwardsSuffix a o := by
  intro o ho
  rcases wrap_attempted_mem h o ho with ⟨c, hcmem, hto⟩
  rcases (toOpt_some_iff c o).mp hto with ⟨hb, hstrip⟩
  subst hstrip
  cases c with
  | method =>
    refine ⟨?_, ?_, ?_⟩ <;> intro q hq <;> simp [strippedOpt] at hq
  | keyFile p =>
    have hlen := inBounds_keyFile hb
    refine ⟨?_, ?_, ?_⟩ <;> intro q hq <;> simp [strippedOpt] at hq
    subst hq
    exact ⟨p, keyFile_mem_planned hcmem, hlen, rfl, List.take_append_drop 6 p⟩
  | certFile p =>
    have hlen := inBounds_certFile hb
    refine ⟨?_, ?_, ?_⟩ <;> intro q hq <;> simp [strippedOpt] at hq
    subst hq
    exact ⟨p, certFile_mem_planned hcmem, hlen, rfl, List.take_append_drop 6 p⟩
  | caFile p =>
    have hlen := inBounds_caFile hb
    refine ⟨?_, ?_, ?_⟩ <;> intro q hq <;> simp [strippedOpt] at hq
    subst hq
    exact ⟨p, (caFile_mem_planned hcmem).1, hlen, rfl,
           List.take_append_drop 6 p⟩

/-- Witness for C6: the key-file call attempted in the run of
`argsRequired` carries the 6-character-stripped suffix of `keyPath`. -/
theorem wrap_forwards_stripped_suffix_witness :
    mod_ssl_wrap_socket okOracle sock0 argsRequired = some resRequired ∧
    forwardsSuffix argsRequired (SlOpt.keyFile (keyPath.drop 6)) :=
  ⟨by decide,
   wrap_forwards_stripped_suffix okOracle sock0 argsRequired resRequired
     (by decide) (SlOpt.keyFile (keyPath.drop 6)) (by decide)⟩

/-- C9: the path strip reads the string from character index 6 with no
length check; the read stays in bounds exactly when the provided path
has length at least 6, and for a shorter path the access is out of
bounds — a wrap run that reaches such a call has no defined result. -/
theorem strip_reads_require_root_length :
    (∀ p : Path, (stripRoot? p).isSome ↔ 6 ≤ p.length) ∧
    (∀ (oracle : SlOpt → Int) (sock : PlainSocket) (a : WrapArgs) (p : Path),
      ¬(a.cert_reqs ≠ SSL_CERT_NONE ∧ a.ca_certs = none) →
      a.keyfile = some p → p.length < 6 →
      ¬(a.server_side = true ∧ a.certfile = none) →
      0 ≤ oracle (SlOpt.secMethod SL_SO_SEC_METHOD_TLSV1) →
      mod_ssl_wrap_socket oracle sock a = none) := by
  constructor
  · intro p
    unfold stripRoot?
    split <;> simp_all
  · intro oracle sock a p hv1 hk hlen hsrv hm
    have hv2 : ¬(a.server_side = true ∧
        (a.keyfile = none ∨ a.certfile = none)) := by
      rintro ⟨hss, h1 | h1⟩
      · rw [hk] at h1; cases h1
      · exact hsrv ⟨hss, h1⟩
    have hnone : stripRoot? p = none := by
      unfold stripRoot?; rw [if_neg (not_le.mpr hlen)]
    have hplan : planned a = PlannedCall.method :: PlannedCall.keyFile p ::
        ((match a.certfile with
          | none => [] | some q => [PlannedCall.certFile q])
         ++ (match (if a.ca_certs = none ∨ a.cert_reqs ≠ SSL_CERT_REQUIRED
                    then (none : Option Path) else a.ca_certs) with
             | none => [] | some q => [PlannedCall.caFile q])) := by
      unfold planned
      rw [hk]
      simp
    have hrun : runCalls oracle ⟨[], []⟩ (planned a) = none := by
      rw [hplan]
      simp [runCalls, toOpt, hnone, not_lt.mpr hm]
    unfold mod_ssl_wrap_socket
    rw [if_neg hv1, if_neg hv2, hrun]

/-- Witness for C9: the 3-character path "abc" cannot be stripped, and a
request carrying it as keyfile leaves the wrap undefined. -/
theorem strip_reads_require_root_length_witness :
    ((stripRoot? shortPath).isSome ↔ 6 ≤ shortPath.length) ∧
    mod_ssl_wrap_socket okOracle sock0 ⟨some shortPath, none, false, 0, none⟩ =
      none :=
  ⟨strip_reads_require_root_length.1 shortPath,
   strip_reads_require_root_length.2 okOracle sock0
     ⟨some shortPath, none, false, 0, none⟩ shortPath
     (by decide) (by decide) (by decide) (by decide) (by decide)⟩

/-- C10: a `cert_reqs` value outside {NONE, OPTIONAL, REQUIRED} is
handled, not rejected: it counts as non-NONE for validation, so the
request must carry a CA file or the invalid-arguments outcome is raised
with no call attempted; in any run of such a request the CA file is
never forwarded (it is not REQUIRED), and a successful wrap carries the
certificate-required flag false. -/
theorem wrap_out_of_range_cert_reqs (oracle : SlOpt → Int)
    (sock : PlainSocket) (a : WrapArgs)
    (hout : a.cert_reqs ≠ SSL_CERT_NONE ∧ a.cert_reqs ≠ SSL_CERT_OPTIONAL ∧
            a.cert_reqs ≠ SSL_CERT_REQUIRED) :
    (a.ca_certs = none →
      mod_ssl_wrap_socket oracle sock a = some ⟨.argError, [], []⟩) ∧
    (∀ r, mod_ssl_wrap_socket oracle sock a = some r →
      (∀ p, SlOpt.caFile p ∉ r.attempted) ∧
      (∀ s, r.outcome = Outcome.ok s → s.sock_base.cert_req = false)) := by
  constructor
  · intro hca
    unfold mod_ssl_wrap_socket
    rw [if_pos ⟨hout.1, hca⟩]
  · intro r h
    constructor
    · intro p hmem
      rcases wrap_attempted_mem h (SlOpt.caFile p) hmem with ⟨c, hcmem, hto⟩
      rcases (toOpt_some_iff c _).mp hto with ⟨-, hstrip⟩
      cases c with
      | method => simp [strippedOpt] at hstrip
      | keyFile q => simp [strippedOpt] at hstrip
      | certFile q => simp [strippedOpt] at hstrip
      | caFile q => exact absurd (caFile_mem_planned hcmem).2 hout.2.2
    · intro s hs
      have hshape := wrap_ok_shape h hs
      rw [hshape.2.2.1]
      simp [hout.2.2]

/-- Witness for C10: with `cert_reqs = 3` and no CA file the request is
rejected with no call attempted; with all files given it wraps, never
forwards the CA file, and the returned flag is false. -/
theorem wrap_out_of_range_cert_reqs_witness :
    (mod_ssl_wrap_socket okOracle sock0 ⟨none, none, false, 3, none⟩ =
      some ⟨.argError, [], []⟩) ∧
    ((∀ p, SlOpt.caFile p ∉ resOutOfRange.attempted) ∧
     (∀ s, resOutOfRange.outcome = Outcome.ok s →
        s.sock_base.cert_req = false)) :=
  ⟨(wrap_out_of_range_cert_reqs okOracle sock0 ⟨none, none, false, 3, none⟩
      (by decide)).1 rfl,
   (wrap_out_of_range_cert_reqs okOracle sock0 argsOutOfRange
      (by decide)).2 resOutOfRange (by decide)⟩

end Ussl
